import Mathlib

/-
Shallow embedding of the `market_reports_api` repository:
  src/market_reports_process.py  (URL normalization, chart download,
                                  placeholder substitution, report pipeline)
  src/drive_utils.py             (upload_to_drive)
  src/market_reports_app.py      (the /generate_market_reports intake endpoint)

Modelling conventions:
  - Python dicts with string keys/values are association lists (`Dict`);
    lookup returns the first binding, assignment replaces it in place.
  - Python exceptions are modelled with `Option`: a function that can raise
    and is wrapped by a caller-level `try/except` returning `None` becomes a
    total function into `Option`.
  - External effects (template rendering, HTTP, Drive API, the filesystem)
    are abstracted into explicit environment records whose fields record
    whether each effectful step of the Python code succeeds and what it
    returns.  The control flow around those steps is translated exactly.
  - Python `re` patterns used by the code are implemented character by
    character over `List Char` with Python `re.search`/`re.sub` semantics
    (leftmost match, greedy quantifiers, single non-recursive pass).
    Python `\s` is modelled by its ASCII subset, which covers template text.
-/

/-- Python dict with string keys and string values, as an association list
(first binding wins on lookup, as Python dicts have unique keys). -/
abbrev Dict := List (String × String)

/-- `d.get(k)`: `none` when the key is absent. -/
def dictGet : Dict → String → Option String
  | [], _ => none
  | (a, b) :: rest, k => if a = k then some b else dictGet rest k

/-- `d.get(k, dflt)`. -/
def dictGetD (d : Dict) (k dflt : String) : String :=
  (dictGet d k).getD dflt

/-- `d[k] = v`: replaces an existing binding in place, else appends. -/
def dictSet : Dict → String → String → Dict
  | [], k, v => [(k, v)]
  | (a, b) :: rest, k, v =>
    if a = k then (k, v) :: rest else (a, b) :: dictSet rest k v

/-
=== Asset fetcher: `to_direct_drive_url` (market_reports_process.py 43-55) ===

    m = re.search(r"[?&]id=([^&]+)", url)
    if m: return f"https://drive.google.com/uc?export=download&id={m.group(1)}"
    m = re.search(r"/d/([^/]+)", url)
    if m: return f"https://drive.google.com/uc?export=download&id={m.group(1)}"
    return url
-/

/-- One attempt of the pattern `[?&]id=([^&]+)` at the head of the string:
a `?` or `&`, the literal `id=`, then a maximal nonempty run of
non-`&` characters (the capture).  Returns the capture. -/
def headCapQ (s : List Char) : Option (List Char) :=
  match s with
  | c1 :: c2 :: c3 :: c4 :: tail =>
    if (c1 = '?' ∨ c1 = '&') ∧ c2 = 'i' ∧ c3 = 'd' ∧ c4 = '=' then
      if (tail.takeWhile (fun c => !(c == '&'))).isEmpty then none
      else some (tail.takeWhile (fun c => !(c == '&')))
    else none
  | _ => none

/-- `re.search(r"[?&]id=([^&]+)", url)`: leftmost position where the whole
pattern (including a nonempty capture) matches; returns the capture. -/
def findQueryId : List Char → Option (List Char)
  | [] => none
  | c :: rest =>
    match headCapQ (c :: rest) with
    | some cap => some cap
    | none => findQueryId rest

/-- One attempt of the pattern `/d/([^/]+)` at the head of the string. -/
def headCapD (s : List Char) : Option (List Char) :=
  match s with
  | c1 :: c2 :: c3 :: tail =>
    if c1 = '/' ∧ c2 = 'd' ∧ c3 = '/' then
      if (tail.takeWhile (fun c => !(c == '/'))).isEmpty then none
      else some (tail.takeWhile (fun c => !(c == '/')))
    else none
  | _ => none

/-- `re.search(r"/d/([^/]+)", url)`. -/
def findDPathId : List Char → Option (List Char)
  | [] => none
  | c :: rest =>
    match headCapD (c :: rest) with
    | some cap => some cap
    | none => findDPathId rest

/-- `to_direct_drive_url` (market_reports_process.py 43-55): rewrite a Drive
share URL into the direct-download form, first via the `id` query
parameter, then via the `/d/` path segment, else pass through. -/
def to_direct_drive_url (url : String) : String :=
  match findQueryId url.data with
  | some fid => "https://drive.google.com/uc?export=download&id=" ++ String.mk fid
  | none =>
    match findDPathId url.data with
    | some fid => "https://drive.google.com/uc?export=download&id=" ++ String.mk fid
    | none => url

/-
=== Slide composer: `replace_placeholder` (market_reports_process.py 71-85) ===

    pattern = re.compile(r"\{\{\s*" + re.escape(key) + r"\s*\}\}")
    for shape in slide.shapes:
        if not shape.has_text_frame: continue
        for paragraph in shape.text_frame.paragraphs:
            if not paragraph.runs:
                paragraph.text = pattern.sub(text, paragraph.text)
            for run in paragraph.runs:
                run.text = pattern.sub(text, run.text)

Note the compiled pattern carries no re.IGNORECASE flag: matching is
case-sensitive.
-/

/-- The ASCII characters matched by Python `\s`. -/
def isPyWs (c : Char) : Bool :=
  c = ' ' || c = '\t' || c = '\n' || c = '\r' || c = '\x0b' || c = '\x0c'

/-- Match `\s*\}\}` at the head of `s`, returning the remainder.  `}` is not
whitespace, so the greedy `\s*` needs no backtracking here. -/
def matchClose (s : List Char) : Option (List Char) :=
  match s.dropWhile isPyWs with
  | c1 :: c2 :: rest => if c1 = '}' ∧ c2 = '}' then some rest else none
  | _ => none

/-- Match the literal `key` then `\s*\}\}` at the head of `s`. -/
def matchKeyClose (key : List Char) (s : List Char) : Option (List Char) :=
  if s.take key.length = key then matchClose (s.drop key.length) else none

/-- Greedy `\s*` with backtracking before `key\s*\}\}`: try consuming `i`
whitespace characters first, then fewer, down to zero. -/
def tryWs (key : List Char) (s : List Char) : Nat → Option (List Char)
  | 0 => matchKeyClose key s
  | i + 1 =>
    match matchKeyClose key (s.drop (i + 1)) with
    | some r => some r
    | none => tryWs key s i

/-- Attempt the whole pattern `\{\{\s*key\s*\}\}` at the head of `s`,
returning the remainder after the match. -/
def matchFrom (key : List Char) (s : List Char) : Option (List Char) :=
  match s with
  | c1 :: c2 :: rest =>
    if c1 = '{' ∧ c2 = '{' then tryWs key rest ((rest.takeWhile isPyWs).length)
    else none
  | _ => none

/-- `pattern.sub(repl, s)`: single left-to-right non-recursive pass, replacing
every leftmost match.  Fuelled with the string length, which always
suffices because every match consumes at least one character. -/
def subTokenAux (key repl : List Char) : Nat → List Char → List Char
  | _, [] => []
  | 0, s => s
  | fuel + 1, c :: rest =>
    match matchFrom key (c :: rest) with
    | some r => repl ++ subTokenAux key repl fuel r
    | none => c :: subTokenAux key repl fuel rest

/-- `pattern.sub(repl, s)` on lists of characters. -/
def subToken (key repl s : List Char) : List Char :=
  subTokenAux key repl s.length s

/-- `re.sub(r"\{\{\s*key\s*\}\}", repl, s)` on strings. -/
def subTokenStr (key repl s : String) : String :=
  String.mk (subToken key.data repl.data s.data)

/-- Whether `s` contains a match of the token pattern anywhere. -/
def hasToken (key : List Char) : List Char → Bool
  | [] => false
  | c :: rest => (matchFrom key (c :: rest)).isSome || hasToken key rest

/-- Whether the string contains the `\{\{\s*key\s*\}\}` token anywhere. -/
def hasTokenStr (key s : String) : Bool :=
  hasToken key.data s.data

/-- Scanning well-formedness used as a side condition: every `{` in the text
begins a complete token match.  Fuelled like `subTokenAux`. -/
def bracesOkAux (key : List Char) : Nat → List Char → Bool
  | _, [] => true
  | 0, _ => true
  | fuel + 1, c :: rest =>
    match matchFrom key (c :: rest) with
    | some r => bracesOkAux key fuel r
    | none => !(c == '{') && bracesOkAux key fuel rest

/-- Every `{` in `s` begins a complete `\{\{\s*key\s*\}\}` token. -/
def bracesOk (key s : List Char) : Bool :=
  bracesOkAux key s.length s

/-- String version of `bracesOk`. -/
def bracesOkStr (key s : String) : Bool :=
  bracesOk key.data s.data

/-
=== python-pptx data model, restricted to what the code touches ===
A slide is a list of shapes; a shape either has a text frame (a list of
paragraphs, each a list of runs, each run a piece of text) or it does not.
-/

/-- A pptx shape: either it has a text frame (paragraphs of runs) or not. -/
inductive Shape where
  | textShape (paragraphs : List (List String))
  | otherShape
deriving DecidableEq

/-- A pptx slide: its list of shapes. -/
abbrev Slide := List Shape

/-- One paragraph of `replace_placeholder`: the pattern is substituted in
every run.  A paragraph with no runs has empty text, and
`pattern.sub(text, "") = ""` (the pattern needs at least four characters),
so the `if not paragraph.runs` branch rewrites empty text to empty text;
mapping over the empty run list models it faithfully. -/
def replace_in_paragraph (key text : String) (runs : List String) : List String :=
  runs.map (fun r => subTokenStr key text r)

/-- `replace_placeholder(slide, key, text)` (market_reports_process.py 71-85):
substitute the token in every paragraph of every text-bearing shape. -/
def replace_placeholder (slide : Slide) (key text : String) : Slide :=
  slide.map (fun sh =>
    match sh with
    | Shape.textShape paras => Shape.textShape (paras.map (replace_in_paragraph key text))
    | Shape.otherShape => Shape.otherShape)

/-- All run texts of a shape, in order (empty for shapes without a text
frame). -/
def shapeTexts : Shape → List String
  | Shape.textShape paras => paras.flatten
  | Shape.otherShape => []

/-- All run texts of a slide, in order. -/
def slideTexts (slide : Slide) : List String :=
  (slide.map shapeTexts).flatten

/-- `content_slide_map` (market_reports_process.py 153-159), zero-based slide
indices to content keys. -/
def content_slide_map : List (Nat × String) :=
  [(1, "executive_summary"),
   (2, "current_state_overview"),
   (3, "hardware_gap_analysis"),
   (4, "software_gap_analysis"),
   (5, "market_benchmarking")]

/-- The substitution loop (market_reports_process.py 162-163):

    for idx, key in content_slide_map.items():
        replace_placeholder(pres.slides[idx], key, content.get(key, ""))

`pres.slides[idx]` raises `IndexError` when `idx` is out of range; the
exception propagates to the surrounding `try`, modelled by `none`. -/
def apply_text_substitutions (slides : List Slide) (content : Dict) :
    List (Nat × String) → Option (List Slide)
  | [] => some slides
  | (idx, key) :: rest =>
    if h : idx < slides.length then
      apply_text_substitutions
        (slides.set idx (replace_placeholder (slides.get ⟨idx, h⟩) key (dictGetD content key "")))
        content rest
    else none

/-- The hardware cover-chart URL lookup (market_reports_process.py 170):
`charts.get("hardware_insights_tier")`.  The same key also gates
`place_charts` (line 37). -/
def resolve_hw_chart_url (charts : Dict) : Option String :=
  dictGet charts "hardware_insights_tier"

/-- The software cover-chart URL lookup (market_reports_process.py 171):
`charts.get("software_insights_tier")`. -/
def resolve_sw_chart_url (charts : Dict) : Option String :=
  dictGet charts "software_insights_tier"

/-- The claimed resolution order, modelled from the spec for comparison with
the code: try a primary key first, a legacy alias second. -/
def chart_url_primary_then_legacy (charts : Dict) (primary legacy : String) : Option String :=
  match dictGet charts primary with
  | some u => some u
  | none => dictGet charts legacy

/-
=== Pipeline orchestrator: `generate_market_reports`
    (market_reports_process.py 125-226) ===

The whole body sits in one `try`; `except Exception` returns `None`.
Effectful steps are abstracted into `Env`:
  docxRenderOk : DocxTemplate load + render + save raise no exception
  docxUpload   : value returned by upload_to_drive for the DOCX (that call
                 never raises, see `upload_to_drive` below)
  pptxOpenOk   : Presentation(PPTX_TEMPLATE) raises no exception
  slides       : the slides of the opened template deck
  placeChartsOk: the place_charts call raises no exception
  hwFetchOk    : download_chart for the hardware cover chart succeeds
                 (requests.get + raise_for_status + file write); on success
                 the downloaded file exists, so the os.path.exists guard
                 passes and add_picture runs
  hwAddOk      : add_picture for the hardware cover chart raises no exception
  swFetchOk, swAddOk : same for the software cover chart
  pptxSaveOk   : pres.save raises no exception
  pptxUpload   : value returned by upload_to_drive for the PPTX
  webhookOk    : the downstream requests.post succeeds (its exception is
                 swallowed by `except Exception: pass`, lines 216-219)
-/

/-- Abstraction of the effectful steps of one `generate_market_reports` run. -/
structure Env where
  docxRenderOk : Bool
  docxUpload : Option String
  pptxOpenOk : Bool
  slides : List Slide
  placeChartsOk : Bool
  hwFetchOk : Bool
  hwAddOk : Bool
  swFetchOk : Bool
  swAddOk : Bool
  pptxSaveOk : Bool
  pptxUpload : Option String
  webhookOk : Bool

/-- The request payload fields read by the pipeline. -/
structure Payload where
  content : Dict
  charts : Dict
  files : List (String × String)
  date : Option String
  organization_name : Option String
  next_action_webhook : Option String

/-- The result dict built at market_reports_process.py 199-211. -/
structure ReportResult where
  session_id : String
  gpt_module : String
  status : String
  content : Dict
  charts : Dict
  files : List (String × String)
  file_1_name : String
  file_1_url : Option String
  file_2_name : String
  file_2_url : Option String
deriving DecidableEq

/-- The DOCX render context (market_reports_process.py 137-139):

    context = payload.get("content", {}).copy()
    context["date"] = payload.get("date", "")
    context["organization_name"] = payload.get("organization_name", "")
-/
def build_docx_context (payload : Payload) : Dict :=
  dictSet (dictSet payload.content "date" (payload.date.getD ""))
    "organization_name" (payload.organization_name.getD "")

/-- Python truthiness of an optional string (`None` and `""` are falsy).
Used for the `if folder_id:` test in drive_utils.py 40 and the
`if hw_url:` / `if sw_url:` tests in market_reports_process.py 173, 182. -/
def truthyOptStr : Option String → Bool
  | none => false
  | some s => !(s == "")

/-- One optional cover-chart block (market_reports_process.py 173-190): the
guard is `if hw_url:` — Python truthiness, so an absent or empty URL skips
the block.  When the URL is truthy, `download_chart` runs (an exception
aborts the run), the file exists on success, and `add_picture` runs (an
exception aborts). -/
def chart_embed_step (url : Option String) (fetchOk addOk : Bool) : Option Unit :=
  if truthyOptStr url then
    (if fetchOk then (if addOk then some () else none) else none)
  else some ()

/-- The `if pres.slides:` cover block (market_reports_process.py 169-190):
hardware chart first, then software chart; skipped on an empty deck. -/
def cover_chart_steps (env : Env) (hw sw : Option String) : Option Unit :=
  if 0 < env.slides.length then
    match chart_embed_step hw env.hwFetchOk env.hwAddOk with
    | none => none
    | some _ => chart_embed_step sw env.swFetchOk env.swAddOk
  else some ()

/-- The downstream webhook POST (market_reports_process.py 214-219) is wrapped
in `try/except Exception: pass`; its outcome never reaches the caller. -/
def try_post_webhook (_ok : Bool) : Unit := ()

/-- `generate_market_reports` (market_reports_process.py 125-226).  Returns
`none` exactly when the surrounding `except Exception` fires. -/
def generate_market_reports (env : Env) (session_id _email _folder_id : String)
    (payload : Payload) (_local_path : String) : Option ReportResult :=
  if env.docxRenderOk then
    let docx_filename := "market_gap_analysis_report_" ++ session_id ++ ".docx"
    let docx_url := env.docxUpload
    if env.pptxOpenOk then
      match apply_text_substitutions env.slides payload.content content_slide_map with
      | none => none
      | some _slides2 =>
        if env.placeChartsOk then
          match cover_chart_steps env (resolve_hw_chart_url payload.charts)
              (resolve_sw_chart_url payload.charts) with
          | none => none
          | some _ =>
            if env.pptxSaveOk then
              let pptx_filename := "market_gap_analysis_executive_report_" ++ session_id ++ ".pptx"
              let pptx_url := env.pptxUpload
              let result : ReportResult :=
                { session_id := session_id
                  gpt_module := "gap_market"
                  status := "complete"
                  content := payload.content
                  charts := payload.charts
                  files := payload.files.map (fun f => (f.1, f.2))
                  file_1_name := docx_filename
                  file_1_url := docx_url
                  file_2_name := pptx_filename
                  file_2_url := pptx_url }
              let _ := try_post_webhook env.webhookOk
              some result
            else none
        else none
    else none
  else none

/-
=== Storage publisher: `upload_to_drive` (drive_utils.py 25-71) ===

The whole body sits in one `try`; `except Exception` returns `None`.
-/

/-- Abstraction of the Drive API interactions of one `upload_to_drive` call. -/
structure DriveEnv where
  serviceInit : Bool
  searchResult : Option (List String)
  createResult : Option String
  uploadResult : Option String

/-- The "determine target folder" block (drive_utils.py 39-55): use a truthy
`folder_id` directly; otherwise search for a folder named `session_id`
(`none` models the search call raising) and reuse the first hit, else
create one (`none` models the create call raising). -/
def resolve_target_folder (env : DriveEnv) (folder_id : Option String) : Option String :=
  if truthyOptStr folder_id then folder_id
  else
    match env.searchResult with
    | none => none
    | some files =>
      match files with
      | f :: _ => some f
      | [] => env.createResult

/-- `upload_to_drive(file_path, session_id, folder_id)` (drive_utils.py 25-71):
raise if the service is uninitialized; resolve the target folder; upload;
return the view URL.  Every exception is caught by the function's own
`except Exception` and turns into `none`. -/
def upload_to_drive (env : DriveEnv) (_file_path _session_id : String)
    (folder_id : Option String) : Option String :=
  if env.serviceInit then
    match resolve_target_folder env folder_id with
    | none => none
    | some _ =>
      match env.uploadResult with
      | none => none
      | some fid => some ("https://drive.google.com/file/d/" ++ fid ++ "/view")
  else none

/-
=== Intake endpoint: `generate_reports` (market_reports_app.py 20-54) ===
-/

/-- The parsed JSON request body fields the endpoint reads. -/
structure ReqBody where
  session_id : Option String
  email : Option String
  folder_id : Option String
  content : Option Dict
  charts : Option Dict

/-- Python truthiness of an optional dict (`None` and `{}` are falsy). -/
def truthyOptDict : Option Dict → Bool
  | none => false
  | some d => !d.isEmpty

/-- The `missing` list built at market_reports_app.py 31-37, in order. -/
def missing_fields (data : ReqBody) : List String :=
  (if truthyOptStr data.session_id then [] else ["session_id"]) ++
  (if truthyOptDict data.content then [] else ["content"]) ++
  (if truthyOptDict data.charts then [] else ["charts"])

/-- The observable outcome of the endpoint: HTTP status, the error message
when one is returned, and whether the background thread was started. -/
structure EndpointResponse where
  status : Nat
  body_error : Option String
  background_started : Bool
deriving DecidableEq

/-- `generate_reports` (market_reports_app.py 20-54): validate the three
required fields, rejecting with 400 before the background thread starts;
otherwise start the thread and acknowledge with 200. -/
def generate_reports (data : ReqBody) : EndpointResponse :=
  let missing := missing_fields data
  if missing ≠ [] then
    { status := 400
      body_error := some ("Missing required fields: " ++ String.intercalate ", " missing)
      background_started := false }
  else
    { status := 200, body_error := none, background_started := true }

/-
=== Concrete sample data used by witnesses and counterexamples ===
-/

/-- A deck with six (empty) slides, enough for every configured index. -/
def sampleSlides : List Slide := List.replicate 6 []

/-- An environment in which every effectful pipeline step succeeds and both
uploads fail (demonstrating that null URLs keep the run complete). -/
def sampleEnv : Env :=
  { docxRenderOk := true
    docxUpload := none
    pptxOpenOk := true
    slides := sampleSlides
    placeChartsOk := true
    hwFetchOk := true
    hwAddOk := true
    swFetchOk := true
    swAddOk := true
    pptxSaveOk := true
    pptxUpload := none
    webhookOk := false }

/-- A payload with no content, no charts and no attachments. -/
def samplePayload : Payload :=
  { content := []
    charts := []
    files := []
    date := none
    organization_name := none
    next_action_webhook := none }

/-- A payload supplying only the hardware cover-chart URL. -/
def payloadHW : Payload :=
  { samplePayload with charts := [("hardware_insights_tier", "http://charts.example/hw.png")] }

/-- Same fully-succeeding environment except the hardware chart download
raises (non-success HTTP status in `download_chart`). -/
def envFetchFail : Env := { sampleEnv with hwFetchOk := false }

/-- Same fully-succeeding environment but the opened deck has one slide,
fewer than the configured slide indices require. -/
def envShortDeck : Env := { sampleEnv with slides := [[]] }

/-- Charts dict carrying only the primary key name the spec expects. -/
def chartsPrimaryOnly : Dict := [("hardware_tier_distribution", "http://charts.example/hw.png")]

/-- A request body whose `charts` mapping is absent. -/
def sampleBadBody : ReqBody :=
  { session_id := some "s1"
    email := none
    folder_id := none
    content := some [("executive_summary", "text")]
    charts := none }

/-- A Drive environment in which search finds nothing, creation succeeds and
the upload returns file id `FILE9`. -/
def sampleDriveEnv : DriveEnv :=
  { serviceInit := true
    searchResult := some []
    createResult := some "FOLD1"
    uploadResult := some "FILE9" }

/-- A slide with one two-run paragraph and a plain token, plus a shape with
no text frame; every `{` in it begins a complete token. -/
def sampleCleanSlide : Slide :=
  [Shape.textShape [["Intro \x7b\x7b executive_summary \x7d\x7d end", "no braces here"]],
   Shape.otherShape]

/-- A slide whose single run nests one token inside surrounding brace
material: `{{{{executive_summary}}executive_summary}}`. -/
def sampleNestedSlide : Slide :=
  [Shape.textShape [["\x7b\x7b\x7b\x7bexecutive_summary\x7d\x7dexecutive_summary\x7d\x7d"]]]

/-- A slide whose single run carries a differently-cased token
`{{ Executive_Summary }}`. -/
def sampleCasedSlide : Slide :=
  [Shape.textShape [["\x7b\x7b Executive_Summary \x7d\x7d"]]]

/-
=== Helper lemmas: dictionaries ===
-/

lemma dictGet_dictSet (d : Dict) (k v q : String) :
    dictGet (dictSet d k v) q = if q = k then some v else dictGet d q := by
  induction d with
  | nil =>
    by_cases h : q = k
    · simp [dictSet, dictGet, h]
    · simp [dictSet, dictGet, h, Ne.symm h]
  | cons hd tl ih =>
    obtain ⟨a, b⟩ := hd
    by_cases hak : a = k
    · subst hak
      by_cases hqk : q = a
      · subst hqk; simp [dictSet, dictGet]
      · simp [dictSet, dictGet, hqk, Ne.symm hqk]
    · by_cases hqk : q = k
      · subst hqk; simp [dictSet, dictGet, hak, ih]
      · by_cases haq : a = q
        · subst haq; simp [dictSet, dictGet, hak, hqk]
        · simp [dictSet, dictGet, hak, hqk, haq, ih]

/-
=== C6 ===
-/

/-- C6: the context handed to the DOCX renderer is the request's `content`
mapping extended with `date` and `organization_name` taken from request
metadata, and the metadata values overwrite same-named content keys
(the two assignments run after the copy). -/
theorem C6_docx_context_injection (payload : Payload) (k : String) :
    dictGet (build_docx_context payload) k =
      if k = "organization_name" then some (payload.organization_name.getD "")
      else if k = "date" then some (payload.date.getD "")
      else dictGet payload.content k := by
  unfold build_docx_context
  rw [dictGet_dictSet, dictGet_dictSet]

/-
=== C10 ===
-/

/-- C10: the intake endpoint rejects a request in which any of `session_id`,
`content`, `charts` is absent or falsy: it answers 400 with a message
listing exactly the missing field names (in that order) and never starts
the background generation; when all three are present it starts the
background thread and answers 200. -/
theorem C10_intake_validation (data : ReqBody) :
    (∀ f, f ∈ missing_fields data ↔
      ((f = "session_id" ∧ truthyOptStr data.session_id = false) ∨
       (f = "content" ∧ truthyOptDict data.content = false) ∨
       (f = "charts" ∧ truthyOptDict data.charts = false))) ∧
    ((truthyOptStr data.session_id = false ∨ truthyOptDict data.content = false ∨
        truthyOptDict data.charts = false) →
      (generate_reports data).status = 400 ∧
      (generate_reports data).background_started = false ∧
      (generate_reports data).body_error =
        some ("Missing required fields: " ++ String.intercalate ", " (missing_fields data))) ∧
    (missing_fields data = [] →
      (generate_reports data).status = 200 ∧ (generate_reports data).background_started = true) := by
  by_cases h1 : truthyOptStr data.session_id <;>
    by_cases h2 : truthyOptDict data.content <;>
      by_cases h3 : truthyOptDict data.charts <;>
        simp [missing_fields, generate_reports, h1, h2, h3]

/-- C10 witness: the endpoint rejects `sampleBadBody` with 400, reports
exactly the missing `charts` field and starts no background work. -/
theorem C10_witness :
    (generate_reports sampleBadBody).status = 400 ∧
    (generate_reports sampleBadBody).background_started = false ∧
    (generate_reports sampleBadBody).body_error = some "Missing required fields: charts" := by
  have h := (C10_intake_validation sampleBadBody).2.1 (Or.inr (Or.inr rfl))
  exact ⟨h.1, h.2.1, h.2.2.trans (by rfl)⟩

/-
=== C9 ===
-/

/-- C9: `upload_to_drive` never lets a failure escape: an uninitialized
client, a failed upload call, a failed folder search, or a failed folder
creation each yield `none`; and every successful call returns the view
URL built from the uploaded file's identifier. -/
theorem C9_upload_best_effort (env : DriveEnv) (fp sid : String) (fid : Option String) :
    (env.serviceInit = false → upload_to_drive env fp sid fid = none) ∧
    (env.uploadResult = none → upload_to_drive env fp sid fid = none) ∧
    (truthyOptStr fid = false → env.searchResult = none →
      upload_to_drive env fp sid fid = none) ∧
    (truthyOptStr fid = false → env.searchResult = some [] → env.createResult = none →
      upload_to_drive env fp sid fid = none) ∧
    (∀ u, upload_to_drive env fp sid fid = some u →
      ∃ i, env.uploadResult = some i ∧
        u = "https://drive.google.com/file/d/" ++ i ++ "/view") := by
  refine ⟨fun h => ?_, fun h => ?_, fun h h2 => ?_, fun h h2 h3 => ?_, fun u h => ?_⟩
  · simp [upload_to_drive, h]
  · cases hs : env.serviceInit
    · simp [upload_to_drive, hs]
    · simp only [upload_to_drive, hs, if_true]
      cases resolve_target_folder env fid <;> simp [h]
  · cases hs : env.serviceInit
    · simp [upload_to_drive, hs]
    · simp [upload_to_drive, hs, resolve_target_folder, h, h2]
  · cases hs : env.serviceInit
    · simp [upload_to_drive, hs]
    · simp [upload_to_drive, hs, resolve_target_folder, h, h2, h3]
  · cases hs : env.serviceInit
    · simp [upload_to_drive, hs] at h
    · simp only [upload_to_drive, hs, if_true] at h
      cases ht : resolve_target_folder env fid <;> rw [ht] at h
      · simp at h
      · cases hu : env.uploadResult <;> rw [hu] at h
        · simp at h
        · exact ⟨_, rfl, (Option.some_injective _ h.symm ▸ rfl)⟩

/-- C9 witness: an uninitialized client yields `none`, and a concrete
successful call returns the view URL built from the file id. -/
theorem C9_witness :
    upload_to_drive
      { serviceInit := false, searchResult := none, createResult := none, uploadResult := none }
      "report.docx" "sess" none = none ∧
    ∃ i, sampleDriveEnv.uploadResult = some i ∧
      ("https://drive.google.com/file/d/FILE9/view" : String) =
        "https://drive.google.com/file/d/" ++ i ++ "/view" := by
  constructor
  · exact (C9_upload_best_effort _ "report.docx" "sess" none).1 rfl
  · exact (C9_upload_best_effort sampleDriveEnv "report.docx" "sess" none).2.2.2.2 _ (by rfl)

/-
=== C4 ===
-/

/-- C4 counterexample: with a charts mapping holding only the primary key
`hardware_tier_distribution`, the code resolves no hardware chart URL at
all, while the claimed primary-then-alias lookup resolves the URL — the
primary key is never consulted by the code. -/
theorem C4_counterexample :
    resolve_hw_chart_url chartsPrimaryOnly = none ∧
    chart_url_primary_then_legacy chartsPrimaryOnly
      "hardware_tier_distribution" "hardware_insights_tier" =
      some "http://charts.example/hw.png" ∧
    resolve_hw_chart_url chartsPrimaryOnly ≠
      chart_url_primary_then_legacy chartsPrimaryOnly
        "hardware_tier_distribution" "hardware_insights_tier" := by
  exact ⟨rfl, rfl, by decide⟩

/-- C4 amended: the chart URL used for embedding is resolved solely from the
legacy alias key (`hardware_insights_tier`, resp. `software_insights_tier`);
the primary key (`hardware_tier_distribution`, resp.
`software_tier_distribution`) is never consulted, so adding or changing it
never affects resolution. -/
theorem C4_amended_legacy_alias_only (charts : Dict) (u : String) :
    resolve_hw_chart_url charts = dictGet charts "hardware_insights_tier" ∧
    resolve_sw_chart_url charts = dictGet charts "software_insights_tier" ∧
    resolve_hw_chart_url (dictSet charts "hardware_tier_distribution" u) =
      resolve_hw_chart_url charts ∧
    resolve_sw_chart_url (dictSet charts "software_tier_distribution" u) =
      resolve_sw_chart_url charts := by
  refine ⟨rfl, rfl, ?_, ?_⟩
  · rw [resolve_hw_chart_url, resolve_hw_chart_url, dictGet_dictSet, if_neg (by decide)]
  · rw [resolve_sw_chart_url, resolve_sw_chart_url, dictGet_dictSet, if_neg (by decide)]

/-
=== Helper lemmas: the placeholder pattern ===
-/

lemma dropWhile_length_le (p : Char → Bool) (l : List Char) :
    (l.dropWhile p).length ≤ l.length := by
  induction l with
  | nil => simp [List.dropWhile]
  | cons c rest ih =>
    by_cases h : p c <;> simp [List.dropWhile_cons, h]
    omega

lemma matchClose_length_le (s r : List Char) (h : matchClose s = some r) :
    r.length ≤ s.length := by
  have hle : (s.dropWhile isPyWs).length ≤ s.length := dropWhile_length_le isPyWs s
  unfold matchClose at h
  cases hd : s.dropWhile isPyWs with
  | nil => rw [hd] at h; simp at h
  | cons c1 tl =>
    cases tl with
    | nil => rw [hd] at h; simp at h
    | cons c2 rest =>
      rw [hd] at h
      by_cases hc : c1 = '}' ∧ c2 = '}'
      · simp only [if_pos hc] at h
        obtain rfl : rest = r := by simpa using h
        rw [hd] at hle
        simp at hle
        omega
      · simp [if_neg hc] at h

lemma matchKeyClose_length_le (key s r : List Char) (h : matchKeyClose key s = some r) :
    r.length ≤ s.length := by
  unfold matchKeyClose at h
  by_cases ht : s.take key.length = key
  · rw [if_pos ht] at h
    have := matchClose_length_le _ _ h
    have h2 : (s.drop key.length).length ≤ s.length := by
      simp [List.length_drop]
    omega
  · simp [if_neg ht] at h

lemma tryWs_length_le (key s r : List Char) :
    ∀ i, tryWs key s i = some r → r.length ≤ s.length := by
  intro i
  induction i with
  | zero => intro h; exact matchKeyClose_length_le _ _ _ h
  | succ n ih =>
    intro h
    unfold tryWs at h
    cases hm : matchKeyClose key (s.drop (n + 1)) with
    | some r2 =>
      rw [hm] at h
      obtain rfl : r2 = r := by simpa using h
      have := matchKeyClose_length_le _ _ _ hm
      have h2 : (s.drop (n + 1)).length ≤ s.length := by
        simp [List.length_drop]
      omega
    | none =>
      rw [hm] at h
      exact ih h

lemma matchFrom_length_lt (key s r : List Char) (h : matchFrom key s = some r) :
    r.length < s.length := by
  unfold matchFrom at h
  cases s with
  | nil => simp at h
  | cons c1 tl =>
    cases tl with
    | nil => simp at h
    | cons c2 rest =>
      by_cases hc : c1 = '{' ∧ c2 = '{'
      · simp only [if_pos hc] at h
        have := tryWs_length_le _ _ _ _ h
        simp
        omega
      · simp [if_neg hc] at h

lemma matchFrom_head_ne (key : List Char) (c : Char) (l : List Char) (hc : ¬ c = '{') :
    matchFrom key (c :: l) = none := by
  cases l with
  | nil => rfl
  | cons x xs => simp [matchFrom, hc]

lemma subTokenAux_id_of_noToken (key repl : List Char) :
    ∀ fuel s, hasToken key s = false → subTokenAux key repl fuel s = s := by
  intro fuel
  induction fuel with
  | zero => intro s _; cases s <;> rfl
  | succ n ih =>
    intro s h
    cases s with
    | nil => rfl
    | cons c rest =>
      cases hm : matchFrom key (c :: rest) with
      | some r => simp [hasToken, hm] at h
      | none =>
        have h2 : hasToken key rest = false := by simpa [hasToken, hm] using h
        simp [subTokenAux, hm, ih rest h2]

lemma hasToken_append_clean (key repl X : List Char) (hr : '{' ∉ repl) :
    hasToken key (repl ++ X) = hasToken key X := by
  induction repl with
  | nil => rfl
  | cons c rest ih =>
    have hc : ¬ c = '{' := fun h => hr (h ▸ List.mem_cons_self c rest)
    have hrest : '{' ∉ rest := fun h => hr (List.mem_cons_of_mem _ h)
    simp [hasToken, matchFrom_head_ne key c _ hc, ih hrest]

lemma subTokenAux_noToken (key repl : List Char) (hrepl : '{' ∉ repl) :
    ∀ fuel s, s.length ≤ fuel → bracesOkAux key fuel s = true →
      hasToken key (subTokenAux key repl fuel s) = false := by
  intro fuel
  induction fuel with
  | zero =>
    intro s hs _
    have hnil : s = [] := List.eq_nil_of_length_eq_zero (Nat.le_zero.mp hs)
    subst hnil; rfl
  | succ n ih =>
    intro s hs hwf
    cases s with
    | nil => rfl
    | cons c rest =>
      cases hm : matchFrom key (c :: rest) with
      | some r =>
        have hlt := matchFrom_length_lt key (c :: rest) r hm
        have hr : r.length ≤ n := by
          simp at hlt hs
          omega
        have hwf2 : bracesOkAux key n r = true := by
          simpa [bracesOkAux, hm] using hwf
        simp only [subTokenAux, hm]
        rw [hasToken_append_clean key repl _ hrepl]
        exact ih r hr hwf2
      | none =>
        have hsrest : rest.length ≤ n := by simp at hs; omega
        have hparts : (¬ c = '{') ∧ bracesOkAux key n rest = true := by
          have h2 := hwf
          simp [bracesOkAux, hm] at h2
          exact ⟨by simpa using h2.1, h2.2⟩
        simp only [subTokenAux, hm]
        simp [hasToken, matchFrom_head_ne key c _ hparts.1, ih rest hsrest hparts.2]

lemma subToken_noToken (key repl s : List Char) (hrepl : '{' ∉ repl)
    (hwf : bracesOk key s = true) :
    hasToken key (subToken key repl s) = false :=
  subTokenAux_noToken key repl hrepl s.length s le_rfl hwf

lemma list_map_id_of {α : Type} (l : List α) (f : α → α) (h : ∀ a ∈ l, f a = a) :
    l.map f = l := by
  induction l with
  | nil => rfl
  | cons x xs ih =>
    rw [List.map_cons, h x (List.mem_cons_self x xs), ih (fun a ha => h a (List.mem_cons_of_mem _ ha))]

lemma slideTexts_cons (a : Shape) (l : Slide) :
    slideTexts (a :: l) = shapeTexts a ++ slideTexts l := by
  simp [slideTexts]

lemma slideTexts_replace (slide : Slide) (key text : String) :
    slideTexts (replace_placeholder slide key text) =
      (slideTexts slide).map (subTokenStr key text) := by
  induction slide with
  | nil => rfl
  | cons sh rest ih =>
    cases sh with
    | textShape paras =>
      have h1 : replace_placeholder (Shape.textShape paras :: rest) key text =
          Shape.textShape (paras.map (replace_in_paragraph key text)) ::
            replace_placeholder rest key text := rfl
      rw [h1, slideTexts_cons, slideTexts_cons, List.map_append, ih]
      congr 1
      show (paras.map (replace_in_paragraph key text)).flatten =
        (paras.flatten).map (subTokenStr key text)
      rw [List.map_flatten]
      rfl
    | otherShape =>
      have h1 : replace_placeholder (Shape.otherShape :: rest) key text =
          Shape.otherShape :: replace_placeholder rest key text := rfl
      rw [h1, slideTexts_cons, slideTexts_cons, List.map_append, ih]
      rfl

lemma replace_placeholder_id (slide : Slide) (key text : String)
    (h : ∀ r ∈ slideTexts slide, hasTokenStr key r = false) :
    replace_placeholder slide key text = slide := by
  induction slide with
  | nil => rfl
  | cons sh rest ih =>
    have hrest : ∀ r ∈ slideTexts rest, hasTokenStr key r = false := by
      intro r hr
      exact h r (by rw [slideTexts_cons]; exact List.mem_append_right _ hr)
    have hsh : ∀ r ∈ shapeTexts sh, hasTokenStr key r = false := by
      intro r hr
      exact h r (by rw [slideTexts_cons]; exact List.mem_append_left _ hr)
    cases sh with
    | otherShape =>
      show Shape.otherShape :: replace_placeholder rest key text = Shape.otherShape :: rest
      rw [ih hrest]
    | textShape paras =>
      show Shape.textShape (paras.map (replace_in_paragraph key text)) ::
          replace_placeholder rest key text = Shape.textShape paras :: rest
      rw [ih hrest]
      have hid : paras.map (replace_in_paragraph key text) = paras := by
        apply list_map_id_of
        intro p hp
        apply list_map_id_of
        intro r hr
        have hrt : hasTokenStr key r = false :=
          hsh r (by simp only [shapeTexts]; exact List.mem_flatten.mpr ⟨p, hp, hr⟩)
        show subTokenStr key text r = r
        unfold subTokenStr subToken
        rw [subTokenAux_id_of_noToken key.data text.data r.data.length r.data hrt]
      rw [hid]

/-
=== C7 ===
-/

/-- C7 counterexample: with `executive_summary` absent from the content map,
substituting into the run `{{{{executive_summary}}executive_summary}}`
replaces the inner token with the empty string, and the surrounding text
joins up into a fresh literal `{{executive_summary}}` token that remains
in the rendered slide text (the single `re.sub` pass never rescans). -/
theorem C7_counterexample :
    dictGet ([] : Dict) "executive_summary" = none ∧
    replace_placeholder sampleNestedSlide "executive_summary"
        (dictGetD [] "executive_summary" "") =
      [Shape.textShape [["\x7b\x7bexecutive_summary\x7d\x7d"]]] ∧
    hasTokenStr "executive_summary" "\x7b\x7bexecutive_summary\x7d\x7d" = true := by
  refine ⟨rfl, ?_, ?_⟩ <;> rfl

/-- C7 amended: for a configured key absent from the content map the
substitution is invoked with the empty string (`content.get(key, "") = ""`)
and completes without any missing-value error; provided every `{` in the
slide's texts begins a complete token, the rendered texts contain no token
occurrence.  Without that proviso the single non-recursive pass can leave
a token formed by the juxtaposition of the text surrounding a replaced
occurrence. -/
theorem C7_missing_key_empty_substitution (content : Dict) (key : String) (slide : Slide)
    (hmiss : dictGet content key = none)
    (hwf : ∀ r ∈ slideTexts slide, bracesOkStr key r = true) :
    dictGetD content key "" = "" ∧
    ∀ r ∈ slideTexts (replace_placeholder slide key (dictGetD content key "")),
      hasTokenStr key r = false := by
  have hempty : dictGetD content key "" = "" := by simp [dictGetD, hmiss]
  refine ⟨hempty, ?_⟩
  intro r hr
  rw [hempty, slideTexts_replace] at hr
  rcases List.mem_map.mp hr with ⟨r0, hr0, rfl⟩
  exact subToken_noToken key.data [] r0.data (by simp) (hwf r0 hr0)

/-- C7 witness: a concrete well-formed slide and a content map lacking
`executive_summary` render with no remaining token. -/
theorem C7_witness :
    dictGet [("other", "x")] "executive_summary" = none ∧
    ∀ r ∈ slideTexts (replace_placeholder sampleCleanSlide "executive_summary"
        (dictGetD [("other", "x")] "executive_summary" "")),
      hasTokenStr "executive_summary" r = false := by
  exact ⟨rfl, (C7_missing_key_empty_substitution [("other", "x")] "executive_summary"
    sampleCleanSlide rfl (by decide)).2⟩

/-
=== C8 ===
-/

/-- C8 counterexample: the run `{{ Executive_Summary }}` is left entirely
unchanged by a substitution for key `executive_summary` (no IGNORECASE
flag is set on the compiled pattern), while the same-case token
`{{ executive_summary }}` is replaced — matching is case-sensitive, not
case-insensitive as claimed. -/
theorem C8_counterexample :
    replace_placeholder sampleCasedSlide "executive_summary" "TEXT" = sampleCasedSlide ∧
    replace_placeholder sampleCasedSlide "executive_summary" "TEXT" ≠
      [Shape.textShape [["TEXT"]]] ∧
    subTokenStr "executive_summary" "TEXT" "\x7b\x7b executive_summary \x7d\x7d" = "TEXT" := by
  refine ⟨rfl, by decide, rfl⟩

/-- C8 amended: the substitution replaces occurrences of the token (braces,
key, optional surrounding whitespace inside the braces) matched
case-sensitively, in every run of every text-bearing shape: a slide whose
texts contain no same-case token is left entirely unchanged (so cased
variants are never replaced), and when the replacement text carries no
`{` and every `{` in the slide's texts begins a complete token, the
rendered texts contain no token occurrence. -/
theorem C8_case_sensitive_substitution (slide : Slide) (key text : String) :
    ((∀ r ∈ slideTexts slide, hasTokenStr key r = false) →
      replace_placeholder slide key text = slide) ∧
    (('{' ∉ text.data) → (∀ r ∈ slideTexts slide, bracesOkStr key r = true) →
      ∀ r ∈ slideTexts (replace_placeholder slide key text),
        hasTokenStr key r = false) := by
  constructor
  · exact replace_placeholder_id slide key text
  · intro htext hwf r hr
    rw [slideTexts_replace] at hr
    rcases List.mem_map.mp hr with ⟨r0, hr0, rfl⟩
    exact subToken_noToken key.data text.data r0.data htext (hwf r0 hr0)

/-- C8 witness: the cased slide satisfies the no-same-case-token hypothesis
and is left unchanged; the clean slide renders token-free. -/
theorem C8_witness :
    replace_placeholder sampleCasedSlide "executive_summary" "TEXT" = sampleCasedSlide ∧
    ∀ r ∈ slideTexts (replace_placeholder sampleCleanSlide "executive_summary" "TEXT"),
      hasTokenStr "executive_summary" r = false := by
  constructor
  · exact (C8_case_sensitive_substitution sampleCasedSlide "executive_summary" "TEXT").1
      (by decide)
  · exact (C8_case_sensitive_substitution sampleCleanSlide "executive_summary" "TEXT").2
      (by decide) (by decide)

/-
=== Helper lemmas: the pipeline ===
-/

lemma apply_subs_isSome (m : List (Nat × String)) :
    ∀ (slides : List Slide) (content : Dict),
      (apply_text_substitutions slides content m).isSome =
        m.all (fun p => decide (p.1 < slides.length)) := by
  induction m with
  | nil => intro slides content; rfl
  | cons p rest ih =>
    intro slides content
    obtain ⟨idx, key⟩ := p
    by_cases h : idx < slides.length
    · simp [apply_text_substitutions, h, ih, List.length_set]
    · simp [apply_text_substitutions, h]

lemma content_map_range (n : Nat) :
    (content_slide_map.all (fun p => decide (p.1 < n))) = true ↔ 6 ≤ n := by
  simp [content_slide_map]
  omega

lemma cover_chart_steps_isSome (env : Env) (hw sw : Option String) :
    (cover_chart_steps env hw sw).isSome = true ↔
      (0 < env.slides.length →
        ((truthyOptStr hw = false ∨ (env.hwFetchOk = true ∧ env.hwAddOk = true)) ∧
         (truthyOptStr sw = false ∨ (env.swFetchOk = true ∧ env.swAddOk = true)))) := by
  unfold cover_chart_steps chart_embed_step
  by_cases h : 0 < env.slides.length
  · simp only [h, if_true, forall_const]
    by_cases ht1 : truthyOptStr hw <;> by_cases ht2 : truthyOptStr sw <;>
      by_cases h1 : env.hwFetchOk <;> by_cases h2 : env.hwAddOk <;>
        by_cases h3 : env.swFetchOk <;> by_cases h4 : env.swAddOk <;>
          simp_all
  · simp [h]


/-
=== C1 ===
-/

/-- C1: `generate_market_reports` yields a result exactly when every step of
its rendering phase succeeds — the DOCX render and the PPTX compose (deck
open, placeholder substitution over the five configured slide indices,
`place_charts`, the cover-slide chart downloads and insertions for each
chart key whose URL is truthy (the `if hw_url:` / `if sw_url:` guards skip
an absent or empty URL), and the deck save); the result then always
carries status `"complete"` and echoes the two upload outcomes, so a
failed Drive upload only nulls the corresponding URL field and a failed
downstream webhook POST changes nothing; a render failure yields `none`
rather than a partial result. -/
theorem C1_complete_iff_render_steps (env : Env) (sid em fid : String) (payload : Payload)
    (lp : String) :
    ((generate_market_reports env sid em fid payload lp).isSome = true ↔
      (env.docxRenderOk = true ∧ env.pptxOpenOk = true ∧ 6 ≤ env.slides.length ∧
       env.placeChartsOk = true ∧
       (truthyOptStr (resolve_hw_chart_url payload.charts) = false ∨
         (env.hwFetchOk = true ∧ env.hwAddOk = true)) ∧
       (truthyOptStr (resolve_sw_chart_url payload.charts) = false ∨
         (env.swFetchOk = true ∧ env.swAddOk = true)) ∧
       env.pptxSaveOk = true)) ∧
    (∀ r, generate_market_reports env sid em fid payload lp = some r →
      r.status = "complete" ∧ r.file_1_url = env.docxUpload ∧
      r.file_2_url = env.pptxUpload ∧ r.session_id = sid) ∧
    (env.docxRenderOk = false →
      generate_market_reports env sid em fid payload lp = none) := by
  by_cases h1 : env.docxRenderOk
  case neg =>
    have h1f : env.docxRenderOk = false := by simpa using h1
    have hgen : generate_market_reports env sid em fid payload lp = none := by
      simp [generate_market_reports, h1f]
    refine ⟨?_, ?_, ?_⟩
    · rw [hgen]; simp [h1f]
    · intro r hr; rw [hgen] at hr; exact absurd hr (by simp)
    · intro _; exact hgen
  case pos =>
  by_cases h2 : env.pptxOpenOk
  case neg =>
    have h2f : env.pptxOpenOk = false := by simpa using h2
    have hgen : generate_market_reports env sid em fid payload lp = none := by
      simp [generate_market_reports, h1, h2f]
    refine ⟨?_, ?_, ?_⟩
    · rw [hgen]; simp [h2f]
    · intro r hr; rw [hgen] at hr; exact absurd hr (by simp)
    · intro hf; exact hgen
  case pos =>
  cases hsub : apply_text_substitutions env.slides payload.content content_slide_map with
  | none =>
    have h6 : ¬ 6 ≤ env.slides.length := by
      intro hc
      have hxx := apply_subs_isSome content_slide_map env.slides payload.content
      rw [hsub, (content_map_range env.slides.length).mpr hc] at hxx
      simp at hxx
    have hgen : generate_market_reports env sid em fid payload lp = none := by
      simp [generate_market_reports, h1, h2, hsub]
    refine ⟨?_, ?_, ?_⟩
    · rw [hgen]
      constructor
      · intro hx; simp at hx
      · rintro ⟨-, -, hlen, -⟩; exact absurd hlen h6
    · intro r hr; rw [hgen] at hr; exact absurd hr (by simp)
    · intro hf; exact hgen
  | some slides2 =>
    have h6 : 6 ≤ env.slides.length := by
      have hxx := apply_subs_isSome content_slide_map env.slides payload.content
      rw [hsub] at hxx
      exact (content_map_range env.slides.length).mp hxx.symm
    have h0 : 0 < env.slides.length := by omega
    by_cases h3 : env.placeChartsOk
    case neg =>
      have h3f : env.placeChartsOk = false := by simpa using h3
      have hgen : generate_market_reports env sid em fid payload lp = none := by
        simp [generate_market_reports, h1, h2, hsub, h3f]
      refine ⟨?_, ?_, ?_⟩
      · rw [hgen]; simp [h3f]
      · intro r hr; rw [hgen] at hr; exact absurd hr (by simp)
      · intro hf; exact hgen
    case pos =>
    cases hcov : cover_chart_steps env (resolve_hw_chart_url payload.charts)
        (resolve_sw_chart_url payload.charts) with
    | none =>
      have hnc : ¬ ((truthyOptStr (resolve_hw_chart_url payload.charts) = false ∨
          (env.hwFetchOk = true ∧ env.hwAddOk = true)) ∧
          (truthyOptStr (resolve_sw_chart_url payload.charts) = false ∨
          (env.swFetchOk = true ∧ env.swAddOk = true))) := by
        intro hc
        have hx := (cover_chart_steps_isSome env (resolve_hw_chart_url payload.charts)
          (resolve_sw_chart_url payload.charts)).mpr (fun _ => hc)
        rw [hcov] at hx
        simp at hx
      have hgen : generate_market_reports env sid em fid payload lp = none := by
        simp [generate_market_reports, h1, h2, hsub, h3, hcov]
      refine ⟨?_, ?_, ?_⟩
      · rw [hgen]
        constructor
        · intro hx; simp at hx
        · rintro ⟨-, -, -, -, ha, hb, -⟩; exact absurd ⟨ha, hb⟩ hnc
      · intro r hr; rw [hgen] at hr; exact absurd hr (by simp)
      · intro hf; exact hgen
    | some u =>
      have hcc := (cover_chart_steps_isSome env (resolve_hw_chart_url payload.charts)
        (resolve_sw_chart_url payload.charts)).mp (by rw [hcov]; rfl) h0
      by_cases h4 : env.pptxSaveOk
      case neg =>
        have h4f : env.pptxSaveOk = false := by simpa using h4
        have hgen : generate_market_reports env sid em fid payload lp = none := by
          simp [generate_market_reports, h1, h2, hsub, h3, hcov, h4f]
        refine ⟨?_, ?_, ?_⟩
        · rw [hgen]; simp [h4f]
        · intro r hr; rw [hgen] at hr; exact absurd hr (by simp)
        · intro hf; exact hgen
      case pos =>
        have hgen : generate_market_reports env sid em fid payload lp = some
            { session_id := sid
              gpt_module := "gap_market"
              status := "complete"
              content := payload.content
              charts := payload.charts
              files := payload.files.map (fun f => (f.1, f.2))
              file_1_name := "market_gap_analysis_report_" ++ sid ++ ".docx"
              file_1_url := env.docxUpload
              file_2_name := "market_gap_analysis_executive_report_" ++ sid ++ ".pptx"
              file_2_url := env.pptxUpload } := by
          simp [generate_market_reports, h1, h2, hsub, h3, hcov, h4]
        refine ⟨?_, ?_, ?_⟩
        · rw [hgen]
          exact iff_of_true rfl ⟨h1, h2, h6, h3, hcc.1, hcc.2, h4⟩
        · intro r hr
          rw [hgen] at hr
          have hre := Option.some_injective _ hr
          rw [← hre]
          exact ⟨rfl, rfl, rfl, rfl⟩
        · intro hf; exact absurd hf (by simp [h1])

/-- C1 witness: with every rendering step succeeding and both uploads
failing, the run still completes with status `"complete"` and a null
first-artifact URL. -/
theorem C1_witness :
    (generate_market_reports sampleEnv "abc123" "" "F1" samplePayload "tmp/abc123").isSome
      = true ∧
    ∃ r, generate_market_reports sampleEnv "abc123" "" "F1" samplePayload "tmp/abc123"
        = some r ∧ r.status = "complete" ∧ r.file_1_url = none := by
  have h := C1_complete_iff_render_steps sampleEnv "abc123" "" "F1" samplePayload "tmp/abc123"
  have hs : (generate_market_reports sampleEnv "abc123" "" "F1" samplePayload
      "tmp/abc123").isSome = true :=
    h.1.mpr ⟨rfl, rfl, by decide, rfl, Or.inl rfl, Or.inl rfl, rfl⟩
  rcases Option.isSome_iff_exists.mp hs with ⟨r, hr⟩
  exact ⟨hs, r, hr, (h.2.1 r hr).1, ((h.2.1 r hr).2.1).trans rfl⟩

/-
=== C2 ===
-/

/-- C2 counterexample: in a run whose every template step succeeds, a
hardware chart URL is present and its download fails; the run returns no
result at all — `raise_for_status` propagates into the run-level handler
instead of degrading. -/
theorem C2_counterexample :
    envFetchFail.docxRenderOk = true ∧ envFetchFail.pptxOpenOk = true ∧
    envFetchFail.pptxSaveOk = true ∧
    resolve_hw_chart_url payloadHW.charts = some "http://charts.example/hw.png" ∧
    truthyOptStr (resolve_hw_chart_url payloadHW.charts) = true ∧
    generate_market_reports envFetchFail "sess1" "" "" payloadHW "tmp/sess1" = none := by
  exact ⟨rfl, rfl, rfl, rfl, rfl, rfl⟩

/-- C2 amended: a chart fetch failure is fatal, not degrading: whenever the
charts mapping supplies a truthy (non-empty) hardware cover-chart URL —
so the `if hw_url:` guard takes the download path — and that download
raises, `generate_market_reports` returns `None` — the run is aborted by
the run-level exception handler and no result is produced. -/
theorem C2_chart_fetch_fatal (env : Env) (sid em fid : String) (payload : Payload)
    (lp : String) (hurl : truthyOptStr (resolve_hw_chart_url payload.charts) = true)
    (hfetch : env.hwFetchOk = false) :
    generate_market_reports env sid em fid payload lp = none := by
  by_cases h1 : env.docxRenderOk
  · by_cases h2 : env.pptxOpenOk
    · cases hsub : apply_text_substitutions env.slides payload.content content_slide_map with
      | none => simp [generate_market_reports, h1, h2, hsub]
      | some slides2 =>
        have h6 : 6 ≤ env.slides.length := by
          have hxx := apply_subs_isSome content_slide_map env.slides payload.content
          rw [hsub] at hxx
          exact (content_map_range env.slides.length).mp hxx.symm
        by_cases h3 : env.placeChartsOk
        · have hcov : cover_chart_steps env (resolve_hw_chart_url payload.charts)
              (resolve_sw_chart_url payload.charts) = none := by
            unfold cover_chart_steps chart_embed_step
            simp [hurl, hfetch, show 0 < env.slides.length by omega]
          simp [generate_market_reports, h1, h2, hsub, h3, hcov]
        · have h3f : env.placeChartsOk = false := by simpa using h3
          simp [generate_market_reports, h1, h2, hsub, h3f]
    · have h2f : env.pptxOpenOk = false := by simpa using h2
      simp [generate_market_reports, h1, h2f]
  · have h1f : env.docxRenderOk = false := by simpa using h1
    simp [generate_market_reports, h1f]

/-- C2 witness: the amended statement at a concrete run. -/
theorem C2_witness :
    generate_market_reports envFetchFail "sessW" "" "" payloadHW "tmp/sessW" = none :=
  C2_chart_fetch_fatal envFetchFail "sessW" "" "" payloadHW "tmp/sessW" (by decide) rfl

/-
=== C3 ===
-/

/-- C3 counterexample: a deck with a single slide (fewer than the configured
slide index 1 requires) makes the fully-succeeding run return no result —
the substitution is not silently skipped, the `IndexError` from
`pres.slides[idx]` aborts the run. -/
theorem C3_counterexample :
    envShortDeck.slides.length = 1 ∧
    envShortDeck.docxRenderOk = true ∧ envShortDeck.pptxOpenOk = true ∧
    generate_market_reports envShortDeck "sess2" "" "" samplePayload "tmp/sess2" = none := by
  exact ⟨rfl, rfl, rfl, rfl⟩

/-- C3 amended: when the deck's slide count is less than or equal to one of
the configured slide indices, `pres.slides[idx]` raises `IndexError`,
which the run-level handler catches: `generate_market_reports` returns
`None`; the substitution is not skipped and the rest of the run does not
proceed. -/
theorem C3_index_overflow_aborts (env : Env) (sid em fid : String) (payload : Payload)
    (lp : String) (hover : ∃ p ∈ content_slide_map, env.slides.length ≤ p.1) :
    generate_market_reports env sid em fid payload lp = none := by
  have hfalse : content_slide_map.all (fun q => decide (q.1 < env.slides.length)) = false := by
    rcases hover with ⟨p, hp, hle⟩
    rcases Bool.eq_false_or_eq_true
        (content_slide_map.all fun q => decide (q.1 < env.slides.length)) with hb | hb
    · exfalso
      have hall := List.all_eq_true.mp hb p hp
      simp at hall
      omega
    · exact hb
  have hsub : apply_text_substitutions env.slides payload.content content_slide_map = none := by
    have hxx := apply_subs_isSome content_slide_map env.slides payload.content
    rw [hfalse] at hxx
    exact Option.not_isSome_iff_eq_none.mp (by simp [hxx])
  by_cases h1 : env.docxRenderOk
  · by_cases h2 : env.pptxOpenOk
    · simp [generate_market_reports, h1, h2, hsub]
    · have h2f : env.pptxOpenOk = false := by simpa using h2
      simp [generate_market_reports, h1, h2f]
  · have h1f : env.docxRenderOk = false := by simpa using h1
    simp [generate_market_reports, h1f]

/-- C3 witness: the amended statement at a concrete one-slide deck. -/
theorem C3_witness :
    generate_market_reports envShortDeck "sessV" "" "" samplePayload "tmp/sessV" = none :=
  C3_index_overflow_aborts envShortDeck "sessV" "" "" samplePayload "tmp/sessV"
    ⟨(1, "executive_summary"), by decide, by decide⟩

/-
=== Helper lemmas: the URL regexes ===
-/

lemma takeWhile_isEmpty_mid (p : Char → Bool) (r : List Char) (q : Char) (l1 l2 : List Char) :
    (List.takeWhile p (r ++ q :: l1)).isEmpty = (List.takeWhile p (r ++ q :: l2)).isEmpty := by
  cases r with
  | nil => by_cases hq : p q <;> simp [List.takeWhile_cons, hq]
  | cons h t => by_cases hh : p h <;> simp [List.takeWhile_cons, hh]

lemma takeWhile_append_of (p : Char → Bool) (X post : List Char)
    (hX : ∀ c ∈ X, p c = true)
    (hpost : post = [] ∨ ∃ h t, post = h :: t ∧ p h = false) :
    List.takeWhile p (X ++ post) = X := by
  induction X with
  | nil =>
    rcases hpost with rfl | ⟨h, t, rfl, hf⟩
    · rfl
    · simp [List.takeWhile_cons, hf]
  | cons x X ih =>
    have hx := hX x (List.mem_cons_self x X)
    simp [List.takeWhile_cons, hx, ih (fun c hc => hX c (List.mem_cons_of_mem _ hc))]

lemma headCapQ_cons (c1 c2 c3 c4 : Char) (tail : List Char) :
    headCapQ (c1 :: c2 :: c3 :: c4 :: tail) =
      if (c1 = '?' ∨ c1 = '&') ∧ c2 = 'i' ∧ c3 = 'd' ∧ c4 = '=' then
        if (tail.takeWhile (fun c => !(c == '&'))).isEmpty then none
        else some (tail.takeWhile (fun c => !(c == '&')))
      else none := rfl

lemma headCapD_cons (c1 c2 c3 : Char) (tail : List Char) :
    headCapD (c1 :: c2 :: c3 :: tail) =
      if c1 = '/' ∧ c2 = 'd' ∧ c3 = '/' then
        if (tail.takeWhile (fun c => !(c == '/'))).isEmpty then none
        else some (tail.takeWhile (fun c => !(c == '/')))
      else none := rfl

lemma headCapQ_agree (c q : Char) (pre tail : List Char) (hq : q = '?' ∨ q = '&')
    (hnone : headCapQ (c :: (pre ++ [q, 'i', 'd', '='])) = none) :
    headCapQ (c :: (pre ++ q :: 'i' :: 'd' :: '=' :: tail)) = none := by
  obtain - | ⟨a, - | ⟨b, - | ⟨e, r⟩⟩⟩ := pre
  · rcases hq with h | h <;> subst h <;> simp [headCapQ]
  · rcases hq with h | h <;> subst h <;> simp [headCapQ]
  · rcases hq with h | h <;> subst h <;> simp [headCapQ]
  · unfold headCapQ at hnone ⊢
    simp only [List.cons_append] at hnone ⊢
    by_cases hcond : (c = '?' ∨ c = '&') ∧ a = 'i' ∧ b = 'd' ∧ e = '='
    · rw [if_pos hcond] at hnone ⊢
      by_cases hemp :
          (List.takeWhile (fun x => !(x == '&')) (r ++ [q, 'i', 'd', '='])).isEmpty
      · have hemp2 : (List.takeWhile (fun x => !(x == '&'))
            (r ++ q :: 'i' :: 'd' :: '=' :: tail)).isEmpty = true := by
          rw [← takeWhile_isEmpty_mid (fun x => !(x == '&')) r q ['i', 'd', '=']
            ('i' :: 'd' :: '=' :: tail)]
          exact hemp
        rw [if_pos hemp2]
      · rw [if_neg hemp] at hnone
        exact absurd hnone (by simp)
    · rw [if_neg hcond]

lemma findQueryId_append (pre : List Char) (q : Char) (tail : List Char)
    (hq : q = '?' ∨ q = '&')
    (hnone : findQueryId (pre ++ [q, 'i', 'd', '=']) = none)
    (hcap : tail.takeWhile (fun c => !(c == '&')) ≠ []) :
    findQueryId (pre ++ q :: 'i' :: 'd' :: '=' :: tail) =
      some (tail.takeWhile (fun c => !(c == '&'))) := by
  induction pre with
  | nil =>
    have hemp : (tail.takeWhile (fun c => !(c == '&'))).isEmpty = false := by
      cases hh : tail.takeWhile (fun c => !(c == '&')) with
      | nil => exact absurd hh hcap
      | cons x l => rfl
    rcases hq with h | h <;> subst h <;> simp [findQueryId, headCapQ, hemp]
  | cons c pre ih =>
    have hhead : headCapQ (c :: (pre ++ [q, 'i', 'd', '='])) = none := by
      cases hh : headCapQ (c :: (pre ++ [q, 'i', 'd', '='])) with
      | some cap =>
        exfalso
        have h0 := hnone
        rw [List.cons_append, findQueryId, hh] at h0
        simp at h0
      | none => rfl
    have hnone2 : findQueryId (pre ++ [q, 'i', 'd', '=']) = none := by
      have h0 := hnone
      rw [List.cons_append, findQueryId, hhead] at h0
      exact h0
    have hagree := headCapQ_agree c q pre tail hq hhead
    rw [List.cons_append, findQueryId, hagree]
    exact ih hnone2

lemma headCapD_agree (c : Char) (pre tail : List Char)
    (hnone : headCapD (c :: (pre ++ ['/', 'd', '/'])) = none) :
    headCapD (c :: (pre ++ '/' :: 'd' :: '/' :: tail)) = none := by
  obtain - | ⟨a, - | ⟨b, r⟩⟩ := pre
  · rw [List.nil_append] at hnone ⊢
    rw [headCapD_cons c '/' 'd' ('/' :: tail)]
    exact if_neg (fun hcond => absurd hcond.2.1 (by decide))
  · simp only [List.cons_append, List.nil_append] at hnone ⊢
    rw [headCapD_cons c a '/' ['d', '/']] at hnone
    rw [headCapD_cons c a '/' ('d' :: '/' :: tail)]
    by_cases hcond : c = '/' ∧ a = 'd' ∧ ('/' : Char) = '/'
    · rw [if_pos hcond] at hnone
      exact absurd hnone (by decide)
    · rw [if_neg hcond]
  · simp only [List.cons_append] at hnone ⊢
    rw [headCapD_cons c a b (r ++ ['/', 'd', '/'])] at hnone
    rw [headCapD_cons c a b (r ++ '/' :: 'd' :: '/' :: tail)]
    by_cases hcond : c = '/' ∧ a = 'd' ∧ b = '/'
    · rw [if_pos hcond] at hnone
      rw [if_pos hcond]
      by_cases hemp :
          (List.takeWhile (fun x => !(x == '/')) (r ++ ['/', 'd', '/'])).isEmpty
      · have hemp2 : (List.takeWhile (fun x => !(x == '/'))
            (r ++ '/' :: 'd' :: '/' :: tail)).isEmpty = true := by
          rw [← takeWhile_isEmpty_mid (fun x => !(x == '/')) r '/' ['d', '/']
            ('d' :: '/' :: tail)]
          exact hemp
        rw [if_pos hemp2]
      · rw [if_neg hemp] at hnone
        exact absurd hnone (by simp)
    · rw [if_neg hcond]

lemma findDPathId_append (pre tail : List Char)
    (hnone : findDPathId (pre ++ ['/', 'd', '/']) = none)
    (hcap : tail.takeWhile (fun c => !(c == '/')) ≠ []) :
    findDPathId (pre ++ '/' :: 'd' :: '/' :: tail) =
      some (tail.takeWhile (fun c => !(c == '/'))) := by
  induction pre with
  | nil =>
    have hemp : (tail.takeWhile (fun c => !(c == '/'))).isEmpty = false := by
      cases hh : tail.takeWhile (fun c => !(c == '/')) with
      | nil => exact absurd hh hcap
      | cons x l => rfl
    simp [findDPathId, headCapD, hemp]
  | cons c pre ih =>
    have hhead : headCapD (c :: (pre ++ ['/', 'd', '/'])) = none := by
      cases hh : headCapD (c :: (pre ++ ['/', 'd', '/'])) with
      | some cap =>
        exfalso
        have h0 := hnone
        rw [List.cons_append, findDPathId, hh] at h0
        simp at h0
      | none => rfl
    have hnone2 : findDPathId (pre ++ ['/', 'd', '/']) = none := by
      have h0 := hnone
      rw [List.cons_append, findDPathId, hhead] at h0
      exact h0
    have hagree := headCapD_agree c pre tail hhead
    rw [List.cons_append, findDPathId, hagree]
    exact ih hnone2

lemma headCapQ_some_props (s X : List Char) (h : headCapQ s = some X) :
    X ≠ [] ∧ ∀ c ∈ X, (c == '&') = false := by
  obtain - | ⟨c1, - | ⟨c2, - | ⟨c3, - | ⟨c4, tail⟩⟩⟩⟩ := s
  · exact Option.noConfusion h
  · exact Option.noConfusion h
  · exact Option.noConfusion h
  · exact Option.noConfusion h
  · rw [headCapQ_cons] at h
    by_cases hcond : (c1 = '?' ∨ c1 = '&') ∧ c2 = 'i' ∧ c3 = 'd' ∧ c4 = '='
    · rw [if_pos hcond] at h
      by_cases hemp : (tail.takeWhile (fun c => !(c == '&'))).isEmpty
      · rw [if_pos hemp] at h; exact absurd h (by simp)
      · rw [if_neg hemp] at h
        obtain rfl : tail.takeWhile (fun c => !(c == '&')) = X := by simpa using h
        constructor
        · intro hx
          rw [hx] at hemp
          exact hemp rfl
        · intro c hc
          simpa using List.mem_takeWhile_imp hc
    · rw [if_neg hcond] at h; exact absurd h (by simp)

lemma headCapD_some_props (s X : List Char) (h : headCapD s = some X) :
    X ≠ [] ∧ ∀ c ∈ X, (c == '/') = false := by
  obtain - | ⟨c1, - | ⟨c2, - | ⟨c3, tail⟩⟩⟩ := s
  · exact Option.noConfusion h
  · exact Option.noConfusion h
  · exact Option.noConfusion h
  · rw [headCapD_cons] at h
    by_cases hcond : c1 = '/' ∧ c2 = 'd' ∧ c3 = '/'
    · rw [if_pos hcond] at h
      by_cases hemp : (tail.takeWhile (fun c => !(c == '/'))).isEmpty
      · rw [if_pos hemp] at h; exact absurd h (by simp)
      · rw [if_neg hemp] at h
        obtain rfl : tail.takeWhile (fun c => !(c == '/')) = X := by simpa using h
        constructor
        · intro hx
          rw [hx] at hemp
          exact hemp rfl
        · intro c hc
          simpa using List.mem_takeWhile_imp hc
    · rw [if_neg hcond] at h; exact absurd h (by simp)

lemma findQueryId_some_props (s X : List Char) (h : findQueryId s = some X) :
    X ≠ [] ∧ ∀ c ∈ X, (c == '&') = false := by
  induction s with
  | nil => simp [findQueryId] at h
  | cons c rest ih =>
    rw [findQueryId] at h
    cases hh : headCapQ (c :: rest) with
    | some cap =>
      rw [hh] at h
      obtain rfl : cap = X := by simpa using h
      exact headCapQ_some_props _ _ hh
    | none =>
      rw [hh] at h
      exact ih h

lemma findDPathId_some_props (s X : List Char) (h : findDPathId s = some X) :
    X ≠ [] ∧ ∀ c ∈ X, (c == '/') = false := by
  induction s with
  | nil => simp [findDPathId] at h
  | cons c rest ih =>
    rw [findDPathId] at h
    cases hh : headCapD (c :: rest) with
    | some cap =>
      rw [hh] at h
      obtain rfl : cap = X := by simpa using h
      exact headCapD_some_props _ _ hh
    | none =>
      rw [hh] at h
      exact ih h

lemma to_direct_fixed (X : List Char) (hne : X ≠ [])
    (hfree : ∀ c ∈ X, (c == '&') = false) :
    to_direct_drive_url ("https://drive.google.com/uc?export=download&id=" ++ String.mk X) =
      "https://drive.google.com/uc?export=download&id=" ++ String.mk X := by
  have hcapX : X.takeWhile (fun c => !(c == '&')) = X := by
    have := takeWhile_append_of (fun c => !(c == '&')) X []
      (fun c hc => by simp [hfree c hc]) (Or.inl rfl)
    simpa using this
  have hdata : ("https://drive.google.com/uc?export=download&id=" ++ String.mk X).data =
      "https://drive.google.com/uc?export=download".data ++ '&' :: 'i' :: 'd' :: '=' :: X := by
    rw [String.data_append]
    rw [show ("https://drive.google.com/uc?export=download&id=" : String).data =
      "https://drive.google.com/uc?export=download".data ++ ['&', 'i', 'd', '='] from rfl]
    rw [List.append_assoc]
    rfl
  have hfind : findQueryId
      ("https://drive.google.com/uc?export=download&id=" ++ String.mk X).data = some X := by
    rw [hdata]
    have := findQueryId_append "https://drive.google.com/uc?export=download".data '&' X
      (Or.inr rfl) (by decide) (by rw [hcapX]; exact hne)
    rw [hcapX] at this
    exact this
  unfold to_direct_drive_url
  rw [hfind]

/-
=== C5 ===
-/

/-- C5 counterexample: the URL `https://drive.google.com/d/a&b/view` is
rewritten through the `/d/` branch into a direct URL whose id `a&b`
contains `&`; applying the normalization again re-extracts only `a` via
the query-parameter regex, so the function is not idempotent. -/
theorem C5_counterexample :
    to_direct_drive_url "https://drive.google.com/d/a&b/view" =
      "https://drive.google.com/uc?export=download&id=a&b" ∧
    to_direct_drive_url (to_direct_drive_url "https://drive.google.com/d/a&b/view") =
      "https://drive.google.com/uc?export=download&id=a" ∧
    to_direct_drive_url (to_direct_drive_url "https://drive.google.com/d/a&b/view") ≠
      to_direct_drive_url "https://drive.google.com/d/a&b/view" := by
  refine ⟨rfl, rfl, by decide⟩

/-- C5 amended: a URL whose first `[?&]id=` match captures `X` (nonempty,
`&`-free, maximal) normalizes to the direct-download form with id `X`; a
URL without a query match whose first `/d/` occurrence captures `X`
(nonempty, `/`-free, maximal — a trailing slash is not required)
normalizes likewise; a URL matching neither regex passes through
unchanged; and the function is idempotent on every URL whose extracted
`/d/` id contains no `&` (in particular on every URL handled via the `id`
query parameter and on every URL passed through unchanged) — while a
`/d/` id containing `&` refutes idempotency (see the counterexample). -/
theorem C5_normalize_characterization :
    (∀ (url : String) (pre : List Char) (q : Char) (X post : List Char),
      url.data = pre ++ q :: 'i' :: 'd' :: '=' :: (X ++ post) →
      (q = '?' ∨ q = '&') → X ≠ [] → (∀ c ∈ X, (c == '&') = false) →
      (post = [] ∨ ∃ h t, post = h :: t ∧ (h == '&') = true) →
      findQueryId (pre ++ [q, 'i', 'd', '=']) = none →
      to_direct_drive_url url =
        "https://drive.google.com/uc?export=download&id=" ++ String.mk X) ∧
    (∀ (url : String) (pre X post : List Char),
      url.data = pre ++ '/' :: 'd' :: '/' :: (X ++ post) →
      findQueryId url.data = none →
      X ≠ [] → (∀ c ∈ X, (c == '/') = false) →
      (post = [] ∨ ∃ h t, post = h :: t ∧ (h == '/') = true) →
      findDPathId (pre ++ ['/', 'd', '/']) = none →
      to_direct_drive_url url =
        "https://drive.google.com/uc?export=download&id=" ++ String.mk X) ∧
    (∀ url : String, findQueryId url.data = none → findDPathId url.data = none →
      to_direct_drive_url url = url) ∧
    (∀ url : String,
      (∀ X, findDPathId url.data = some X → ∀ c ∈ X, (c == '&') = false) →
      to_direct_drive_url (to_direct_drive_url url) = to_direct_drive_url url) := by
  refine ⟨?_, ?_, ?_, ?_⟩
  · intro url pre q X post hdata hq hX hXfree hpost hnone
    have hcap : (X ++ post).takeWhile (fun c => !(c == '&')) = X :=
      takeWhile_append_of _ X post (fun c hc => by simp [hXfree c hc])
        (by rcases hpost with rfl | ⟨h, t, rfl, hf⟩
            · exact Or.inl rfl
            · exact Or.inr ⟨h, t, rfl, by simp [hf]⟩)
    have hfind : findQueryId url.data = some X := by
      rw [hdata]
      have hres := findQueryId_append pre q (X ++ post) hq hnone (by rw [hcap]; exact hX)
      rw [hcap] at hres
      exact hres
    unfold to_direct_drive_url
    rw [hfind]
  · intro url pre X post hdata hqnone hX hXfree hpost hdnone
    have hcap : (X ++ post).takeWhile (fun c => !(c == '/')) = X :=
      takeWhile_append_of _ X post (fun c hc => by simp [hXfree c hc])
        (by rcases hpost with rfl | ⟨h, t, rfl, hf⟩
            · exact Or.inl rfl
            · exact Or.inr ⟨h, t, rfl, by simp [hf]⟩)
    have hfind : findDPathId url.data = some X := by
      rw [hdata]
      have hres := findDPathId_append pre (X ++ post) hdnone (by rw [hcap]; exact hX)
      rw [hcap] at hres
      exact hres
    unfold to_direct_drive_url
    rw [hqnone, hfind]
  · intro url h1 h2
    unfold to_direct_drive_url
    rw [h1, h2]
  · intro url hfree
    cases hq : findQueryId url.data with
    | some X =>
      have hf : to_direct_drive_url url =
          "https://drive.google.com/uc?export=download&id=" ++ String.mk X := by
        unfold to_direct_drive_url
        rw [hq]
      obtain ⟨hXne, hXfree⟩ := findQueryId_some_props url.data X hq
      rw [hf]
      exact to_direct_fixed X hXne hXfree
    | none =>
      cases hd : findDPathId url.data with
      | none =>
        have hf : to_direct_drive_url url = url := by
          unfold to_direct_drive_url
          rw [hq, hd]
        rw [hf, hf]
      | some X =>
        have hf : to_direct_drive_url url =
            "https://drive.google.com/uc?export=download&id=" ++ String.mk X := by
          unfold to_direct_drive_url
          rw [hq, hd]
        obtain ⟨hXne, -⟩ := findDPathId_some_props url.data X hd
        rw [hf]
        exact to_direct_fixed X hXne (hfree X hd)

/-- C5 witness: a concrete `?id=` share link normalizes to the direct form
and is idempotent; a URL matching neither shape passes through. -/
theorem C5_witness :
    to_direct_drive_url "https://drive.google.com/open?id=FILE123" =
      "https://drive.google.com/uc?export=download&id=FILE123" ∧
    to_direct_drive_url (to_direct_drive_url "https://drive.google.com/open?id=FILE123") =
      to_direct_drive_url "https://drive.google.com/open?id=FILE123" ∧
    to_direct_drive_url "https://example.com/nochange" = "https://example.com/nochange" := by
  refine ⟨?_, ?_, ?_⟩
  · have h := C5_normalize_characterization.1 "https://drive.google.com/open?id=FILE123"
      "https://drive.google.com/open".data '?' "FILE123".data []
      (by rfl) (Or.inl rfl) (by decide) (by decide) (Or.inl rfl) (by decide)
    exact h
  · apply C5_normalize_characterization.2.2.2 "https://drive.google.com/open?id=FILE123"
    intro X hX
    rw [show findDPathId ("https://drive.google.com/open?id=FILE123" : String).data = none
      from by decide] at hX
    exact Option.noConfusion hX
  · exact C5_normalize_characterization.2.2.1 "https://example.com/nochange"
      (by decide) (by decide)
